import Mathlib

/-
Verification development for the mirror tool (dzlia/mirror).

Shallow embedding of the core of the program:
  * the file-record data model and the mismatch reporters
    (src/mirror/FileDB.hpp, src/mirror/utils.hpp),
  * the manifest row written by FileDB::addFile and read back by
    FileDB::getFiles (src/mirror/FileDB.cpp),
  * the transactional structure of createDB (src/mirror/utils.cpp),
  * the byte-copy loop of copyFile (src/mirror/utils.cpp),
  * the iterative directory walker scanFiles and the checkFileSystem /
    createDB event handlers (src/mirror/utils.hpp, src/mirror/utils.cpp).

Throughout, the OS locale is taken to be UTF-8, under which the program's
convertToUtf8 / convertFromUtf8 are the identity (mirror::nopConverter in
src/mirror/encoding.hpp), so path-name conversions are dropped from the
embedding.  Paths and names are lists of characters; machine integers
(off_t, the millisecond timestamps) are modelled as Int; the 8-octet CRC64
digest is a list of octet values.
-/

namespace Mirror

/-- Translation of `enum FileType { file = 0, dir = 1 }` from
src/mirror/FileDB.hpp. -/
inductive FileType where
  | file
  | dir
deriving DecidableEq

/-- Translation of `struct FileRecord` from src/mirror/FileDB.hpp: a file
type, the 8-octet CRC64 digest, the last-modified timestamp in milliseconds
(afc::Timestamp::millis()), and the file size (off_t). -/
structure FileRecord where
  type : FileType
  crc64 : List Nat
  lastModifiedMillis : Int
  fileSize : Int
deriving DecidableEq

/-- Translation of `mirror::VerifyDirMismatchHandler::checkFileMismatch`
(src/mirror/utils.hpp, lines 553-598 of the current revision).  The logging
is dropped; the returned `fullMatch` value is kept exactly: a type mismatch
yields false; for two FILE records the size, the millisecond timestamps and
the digests are compared; for two DIR records nothing further is compared. -/
def verifyCheckFileMismatch (expectedFileRecord actualFileRecord : FileRecord) : Bool :=
  if expectedFileRecord.type ≠ actualFileRecord.type then
    false
  else if actualFileRecord.type = FileType.file then
    let sizeMismatch : Bool := decide (expectedFileRecord.fileSize ≠ actualFileRecord.fileSize)
    let lastModMismatch : Bool :=
      decide (expectedFileRecord.lastModifiedMillis ≠ actualFileRecord.lastModifiedMillis)
    let digestMismatch : Bool := !(decide (actualFileRecord.crc64 = expectedFileRecord.crc64))
    !sizeMismatch && !lastModMismatch && !digestMismatch
  else
    true

/-- Translation of `mirror::MergeDirMismatchHandler::checkFileMismatch`
(src/mirror/utils.hpp, lines 660-665): the body is `// TODO implement me`
followed by `return true;`, so the function ignores both records. -/
def mergeCheckFileMismatch (expectedFileRecord actualFileRecord : FileRecord) : Bool :=
  true

/-- Modelled from the spec: the comparison rule of spec.md section 4.5 -
"for a `FILE` record, mismatch is reported if any of `{type, size, mtime,
digest}` differ. For a `DIR` record, only `type` is compared" - and section
4.6 - `check_mismatch` "returns `true` when the two records are equal in the
comparison rule above".  This definition follows the spec's words and is
compared against the translations of the two reporters. -/
def specRecordsEqual (expected actual : FileRecord) : Bool :=
  if expected.type = actual.type then
    match expected.type with
    | FileType.file =>
        decide (expected.fileSize = actual.fileSize) &&
        decide (expected.lastModifiedMillis = actual.lastModifiedMillis) &&
        decide (expected.crc64 = actual.crc64)
    | FileType.dir => true
  else
    false

/-- Mapping of a `FileType` to the integer stored in the `type` column by
`sqlite3_bind_int(stmt, 3, static_cast<int>(data.type))`
(src/mirror/FileDB.cpp, addFile). -/
def FileType.toColumn : FileType → Int
  | FileType.file => 0
  | FileType.dir => 1

/-- Model of one row of the `files` table created by the FileDB constructor
(src/mirror/FileDB.cpp): `files(file text, dir text, type integer,
size integer, last_modified integer, crc64 blob, primary key (file, dir))`.
Nullable columns are Options. -/
structure FileRow where
  file : List Char
  dir : List Char
  type : Int
  size : Option Int
  last_modified : Option Int
  crc64 : Option (List Nat)
deriving DecidableEq

/-- Translation of the column binding performed by `mirror::FileDB::addFile`
(src/mirror/FileDB.cpp, lines 113-205).  For `FileType::file` the size, the
timestamp truncated to seconds (`data.lastModifiedTS.millis() / 1000`, C++
signed division, which truncates toward zero: Int.tdiv) and the digest blob
are bound; for `FileType::dir` all three value columns are bound null. -/
def addFileRow (fileNameU8 dirNameU8 : List Char) (data : FileRecord) : FileRow :=
  { file := fileNameU8
    dir := dirNameU8
    type := data.type.toColumn
    size :=
      match data.type with
      | FileType.file => some data.fileSize
      | FileType.dir => none
    last_modified :=
      match data.type with
      | FileType.file => some (Int.tdiv data.lastModifiedMillis 1000)
      | FileType.dir => none
    crc64 :=
      match data.type with
      | FileType.file => some data.crc64
      | FileType.dir => none }

/-- Translation of the row decoding in `mirror::FileDB::getFiles`
(src/mirror/FileDB.cpp, lines 223-253): for a `file` row the size, the
timestamp rebuilt as `seconds * 1000` (setMillis(column * 1000)) and the
digest are read; for a `dir` row only the type is set and the remaining
fields keep the value-initialised defaults of the freshly created map
entry. -/
def readFileRecord (row : FileRow) : FileRecord :=
  if row.type = FileType.file.toColumn then
    { type := FileType.file
      crc64 := row.crc64.getD (List.replicate 8 0)
      lastModifiedMillis := row.last_modified.getD 0 * 1000
      fileSize := row.size.getD 0 }
  else
    { type := FileType.dir
      crc64 := List.replicate 8 0
      lastModifiedMillis := 0
      fileSize := 0 }

/-- Model of one `insert or replace into files ...` step: the row keyed by
`(file, dir)` is replaced (the table's primary key is `(file, dir)`). -/
def dbAddFile (rows : List FileRow) (fileNameU8 dirNameU8 : List Char) (data : FileRecord) :
    List FileRow :=
  rows.filter (fun r => !(decide (r.file = fileNameU8 ∧ r.dir = dirNameU8))) ++
    [addFileRow fileNameU8 dirNameU8 data]

/-- Per-row statement of the null-column invariant of spec.md section 3:
a `dir` row has the three value columns null, a `file` row has them all
present. -/
def fileRowOk (row : FileRow) : Bool :=
  if row.type = FileType.dir.toColumn then
    decide (row.size = none) && decide (row.last_modified = none) && decide (row.crc64 = none)
  else
    row.size.isSome && row.last_modified.isSome && row.crc64.isSome

/-- The null-column invariant over a whole table. -/
def dbOk (rows : List FileRow) : Bool :=
  rows.all fileRowOk

/-- Arguments of one `FileDB::addFile` call (file name, directory name, both
UTF-8, and the record). -/
structure DbAdd where
  fileNameU8 : List Char
  dirNameU8 : List Char
  data : FileRecord
deriving DecidableEq

/-- Model of the manifest database with an optional open transaction:
`committed` is the durable content of the manifest file, `tx` the working
copy of the open transaction (sqlite `begin transaction` semantics). -/
structure TxDB where
  committed : List FileRow
  tx : Option (List FileRow)
deriving DecidableEq

/-- Model of `mirror::FileDB::beginTransaction` (src/mirror/FileDB.hpp):
the transaction starts from the committed contents. -/
def beginTransaction (db : TxDB) : TxDB :=
  { db with tx := some db.committed }

/-- Model of `mirror::FileDB::commit`: the working copy becomes durable. -/
def commit (db : TxDB) : TxDB :=
  { committed := db.tx.getD db.committed, tx := none }

/-- Model of `mirror::FileDB::rollback`: the working copy is discarded and
the committed contents are untouched. -/
def rollback (db : TxDB) : TxDB :=
  { db with tx := none }

/-- One `addFile` call issued inside the open transaction. -/
def txAddFile (db : TxDB) (a : DbAdd) : TxDB :=
  { db with tx := some (dbAddFile (db.tx.getD db.committed) a.fileNameU8 a.dirNameU8 a.data) }

/-- Primitive database operations, recorded in call order. -/
inductive TxOp where
  | beginT
  | addT (a : DbAdd)
  | rollbackT
  | commitT
deriving DecidableEq

/-- The rows obtained by replaying a list of addFile calls on the committed
contents of a database. -/
def appliedRows (db : TxDB) (adds : List DbAdd) : List FileRow :=
  adds.foldl (fun rows a => dbAddFile rows a.fileNameU8 a.dirNameU8 a.data) db.committed

/-- Translation of the transactional structure of `mirror::createDB`
(src/mirror/utils.cpp, lines 375-428): `db.beginTransaction(); try {
scanFiles(...); } catch (...) { db.rollback(); throw; } db.commit();`.
The walk is abstracted by the list of addFile calls it performs before
either completing (`walkThrows = false`) or throwing (`walkThrows = true`).
The result is the final database, the trace of primitive database
operations, and whether the error was re-raised to the caller. -/
def createDB (db : TxDB) (adds : List DbAdd) (walkThrows : Bool) :
    TxDB × List TxOp × Bool :=
  let db1 := beginTransaction db
  let db2 := adds.foldl txAddFile db1
  if walkThrows then
    (rollback db2, TxOp.beginT :: (adds.map TxOp.addT ++ [TxOp.rollbackT]), true)
  else
    (commit db2, TxOp.beginT :: (adds.map TxOp.addT ++ [TxOp.commitT]), false)

/-- Translation of the copy loop of `mirror::copyFile`
(src/mirror/utils.cpp, lines 449-467) on an error-free run: `for (;;) {
n = read(srcFd, buf, 4096); if (n == -1) {...} else { m = write(destFd,
buf, n); if (m < n) {...} } }`.  On a regular file with `remaining` bytes
left, `read` returns `min 4096 remaining` (0 at end of file, never -1 when
no error occurs) and a successful `write` returns its count, so `m < n`
is false and the loop continues unconditionally - the source has no
`n == 0` break.  `fuel` bounds the number of iterations observed; `none`
means the loop is still running after `fuel` iterations. -/
def copyFileLoop : Nat → Nat → Option Bool
  | 0, _ => none
  | fuel + 1, remaining =>
    let n : Nat := min 4096 remaining
    copyFileLoop fuel (remaining - n)

/-- Translation of the root normalisation at the top of
`mirror::_helper::scanFiles(rootDir, rootDirSize, eventHandler)`
(src/mirror/utils.hpp, lines 509-519): `if (rootDir[rootDirSize - 1] ==
'/') --normalisedSize;`.  `rootDirSize` is a std::size_t, so
`rootDirSize - 1` wraps modulo 2^64; the subscript is modelled by the
partial list lookup, with `none` standing for the out-of-bounds read
(undefined behaviour) that occurs when the index is not inside the
buffer. -/
def normalisedRootSize (rootDir : List Char) (rootDirSize : Nat) : Option Nat :=
  match rootDir[(rootDirSize + (2 ^ 64 - 1)) % 2 ^ 64]? with
  | none => none
  | some c => some (if c = '/' then rootDirSize - 1 else rootDirSize)

/-- Open flags relevant to the walker: O_RDONLY, O_NOFOLLOW, O_DIRECTORY. -/
structure OpenFlags where
  rdonly : Bool
  nofollow : Bool
  directory : Bool
deriving DecidableEq

/-- Flags of the root open in `mirror::_helper::scanFiles(path,
eventHandler)` (src/mirror/utils.hpp, line 919): `open(path.c_str(),
O_RDONLY | O_NOFOLLOW | O_DIRECTORY)`. -/
def rootOpenFlags : OpenFlags :=
  { rdonly := true, nofollow := true, directory := true }

/-- Flags of the per-entry open in the walker loop (src/mirror/utils.hpp,
line 968): `openat(dirFd, name, O_RDONLY)` - neither O_NOFOLLOW nor
O_DIRECTORY is passed. -/
def childOpenFlags : OpenFlags :=
  { rdonly := true, nofollow := false, directory := false }

mutual
/-- Model of a filesystem node: a regular file (size, mtime in seconds as
reported by stat, content digest, and whether fstat on it fails with
EACCES), a directory with its entries, a symbolic link with its resolved
target, or a node of any other type (socket, device...), which the walker
logs and skips.  Directory stat fields are omitted because no modelled
event handler reads them. -/
inductive FsNode where
  | fileN (fileSize : Int) (mtimeSec : Int) (digest : List Nat) (statFails : Bool) : FsNode
  | dirN (entries : FsEntries) : FsNode
  | symlinkN (target : FsNode) : FsNode
  | otherN : FsNode
/-- Named entries of a directory, in the order the directory stream returns
them. -/
inductive FsEntries where
  | nil : FsEntries
  | cons (name : List Char) (node : FsNode) (rest : FsEntries) : FsEntries
end

/-- True when the node is a directory. -/
def isDirNode : FsNode → Bool
  | FsNode.dirN _ => true
  | _ => false

/-- Semantics of `open`/`openat` on a node with the given flags: with
O_NOFOLLOW a symbolic link is refused (ELOOP), otherwise the link is
followed to its target; with O_DIRECTORY a non-directory is refused. -/
def openatNode (flags : OpenFlags) : FsNode → Option FsNode
  | FsNode.symlinkN target =>
      if flags.nofollow then none else openatNode flags target
  | n => if flags.directory && !(isDirNode n) then none else some n

/-- The `name[0] == '.'` test of the walker loop: entries named exactly
`.` or `..` are skipped. -/
def isDotName (name : List Char) : Bool :=
  decide (name = ['.']) || decide (name = ['.', '.'])

/-- Data the event handler receives about one directory entry: the
directory bit of the fstat result and, for a regular file, the stat fields
and the digest of the content read through the entry's descriptor. -/
structure EntryInfo where
  isDir : Bool
  fileSize : Int
  mtimeSec : Int
  digest : List Nat
deriving DecidableEq

/-- Translation of `mirror::_helper::fillRegularFileRecord`
(src/mirror/utils.cpp): type = file, size from stat, timestamp
`st_mtime * 1000` milliseconds, digest of the content. -/
def fillRegularFileRecord (info : EntryInfo) : FileRecord :=
  { type := FileType.file
    crc64 := info.digest
    lastModifiedMillis := info.mtimeSec * 1000
    fileSize := info.fileSize }

/-- The record built for a directory entry: only `fileRecord.type =
FileType::dir` is assigned in the C++ (the remaining fields stay
uninitialised and are never read on the modelled paths); the defaults here
stand for those unread fields. -/
def dirRecord : FileRecord :=
  { type := FileType.dir
    crc64 := List.replicate 8 0
    lastModifiedMillis := 0
    fileSize := 0 }

/-- The event-handler interface of the walker, mirroring the template
parameter of `mirror::_helper::scanFiles`: `dirStart(path, relDirOffset)`,
`dirEnd(path, relDirOffset)` and `file(stat, fd, path, relPathOffset,
fileNameOffset) -> bool`. -/
structure MHandler (σ : Type) where
  dirStart : σ → List Char → Nat → σ
  dirEnd : σ → List Char → Nat → σ
  fileEv : σ → EntryInfo → List Char → Nat → Nat → σ × Bool

/-- State threaded through the walk: the handler state, the growing path
buffer, the next free file-descriptor number, and the ledger of
descriptors obtained (`opened`) and released (`closed`), in order. -/
structure WSt (σ : Type) where
  hs : σ
  path : List Char
  nextFd : Nat
  opened : List Nat
  closed : List Nat
deriving DecidableEq

mutual
/-- Translation of the per-entry body of the walker loop of
`mirror::_helper::scanFiles(path, fd, eventHandler)`
(src/mirror/utils.hpp, lines 950-1018).  In source order: `openat(dirFd,
name, O_RDONLY)` (which, lacking O_NOFOLLOW, follows a symbolic link, so
for a link every later step acts on its target while only the link's name
enters the path buffer); append the name to the path; `fstat(fd)` - on
EACCES the entry is skipped by `continue`, which closes nothing and leaves
the name in the path buffer; for a regular file or directory call
`eventHandler.file(...)`; descend into a directory when the handler
returned true (`fdopendir(fd)`, `dirStart`, append '/'; afterwards
`closedir`, `dirEnd`, and the path is cut back by name-length + 1);
otherwise `close(fd)` and cut the name back off the path. -/
def walkEntry {σ : Type} (h : MHandler σ) (relPathOffset : Nat) (dirFd : Nat)
    (name : List Char) (node : FsNode) (st : WSt σ) : WSt σ :=
  match node with
  | FsNode.symlinkN target =>
      walkEntry h relPathOffset dirFd name target st
  | FsNode.fileN fileSize mtimeSec digest statFails =>
      let fd := st.nextFd
      let st1 : WSt σ :=
        { st with nextFd := fd + 1, opened := st.opened ++ [fd], path := st.path ++ name }
      if statFails then
        st1
      else
        let r := h.fileEv st1.hs (EntryInfo.mk false fileSize mtimeSec digest) st1.path
          relPathOffset (st1.path.length - name.length)
        { st1 with
            hs := r.1
            closed := st1.closed ++ [fd]
            path := st1.path.take (st1.path.length - name.length) }
  | FsNode.dirN entries =>
      let fd := st.nextFd
      let st1 : WSt σ :=
        { st with nextFd := fd + 1, opened := st.opened ++ [fd], path := st.path ++ name }
      let r := h.fileEv st1.hs (EntryInfo.mk true 0 0 []) st1.path relPathOffset
        (st1.path.length - name.length)
      let st2 : WSt σ := { st1 with hs := r.1 }
      if r.2 then
        let st3 : WSt σ :=
          { st2 with hs := h.dirStart st2.hs st2.path relPathOffset, path := st2.path ++ ['/'] }
        let st4 := walkEntries h relPathOffset fd entries st3
        let st5 : WSt σ := { st4 with closed := st4.closed ++ [fd] }
        let st6 : WSt σ := { st5 with hs := h.dirEnd st5.hs st5.path relPathOffset }
        { st6 with path := st6.path.take (st6.path.length - name.length - 1) }
      else
        { st2 with
            closed := st2.closed ++ [fd]
            path := st2.path.take (st2.path.length - name.length) }
  | FsNode.otherN =>
      let fd := st.nextFd
      let st1 : WSt σ :=
        { st with nextFd := fd + 1, opened := st.opened ++ [fd], path := st.path ++ name }
      { st1 with
          closed := st1.closed ++ [fd]
          path := st1.path.take (st1.path.length - name.length) }

/-- The readdir loop over the entries of one directory stream; entries
named `.` or `..` are skipped before anything is opened. -/
def walkEntries {σ : Type} (h : MHandler σ) (relPathOffset : Nat) (dirFd : Nat)
    (entries : FsEntries) (st : WSt σ) : WSt σ :=
  match entries with
  | FsEntries.nil => st
  | FsEntries.cons name node rest =>
      if isDotName name then walkEntries h relPathOffset dirFd rest st
      else walkEntries h relPathOffset dirFd rest (walkEntry h relPathOffset dirFd name node st)
end

/-- Translation of `mirror::_helper::scanFiles(path, eventHandler)` and the
surrounding structure of `scanFiles(path, fd, eventHandler)`
(src/mirror/utils.hpp, lines 916-948 and 1020-1027): the root is opened
with `O_RDONLY | O_NOFOLLOW | O_DIRECTORY` (`none` models the thrown
errno when that open fails, e.g. on a symbolic-link or non-directory
root); then `fdopendir`, `dirStart(path, path.size())`, a '/' is appended,
the relative-path offset is fixed at the new buffer size, the entries are
walked, and finally `closedir` and `dirEnd` run for the root (the loop
breaks before the trailing-slash resize when the context stack is
empty). -/
def scanFilesBuf {σ : Type} (h : MHandler σ) (root : FsNode) (st : WSt σ) : Option (WSt σ) :=
  match openatNode rootOpenFlags root with
  | none => none
  | some n =>
    match n with
    | FsNode.dirN entries =>
      let fd := st.nextFd
      let st1 : WSt σ := { st with nextFd := fd + 1, opened := st.opened ++ [fd] }
      let st2 : WSt σ :=
        { st1 with hs := h.dirStart st1.hs st1.path st1.path.length, path := st1.path ++ ['/'] }
      let relPathOffset := st2.path.length
      let st3 := walkEntries h relPathOffset fd entries st2
      let st4 : WSt σ := { st3 with closed := st3.closed ++ [fd] }
      some { st4 with hs := h.dirEnd st4.hs st4.path relPathOffset }
    | _ => none

/-- Initial walk state: handler state, root path in the buffer, no
descriptors allocated yet. -/
def initialWSt {σ : Type} (s0 : σ) (rootPath : List Char) : WSt σ :=
  { hs := s0, path := rootPath, nextFd := 0, opened := [], closed := [] }

/-- Translation of `mirror::_helper::scanFiles(rootDir, rootDirSize,
eventHandler)` (src/mirror/utils.hpp, lines 509-519): normalise the root
(strip at most one trailing '/'), build the path buffer, and scan. -/
def scanFilesTop {σ : Type} (h : MHandler σ) (s0 : σ) (rootDir : List Char)
    (rootDirSize : Nat) (root : FsNode) : Option (WSt σ) :=
  match normalisedRootSize rootDir rootDirSize with
  | none => none
  | some n => scanFilesBuf h root (initialWSt s0 (rootDir.take n))

/-- One row of the manifest as consumed by the walk-side model: directory
key, file name (both UTF-8) and the stored record. -/
structure DbRow where
  dir : List Char
  file : List Char
  data : FileRecord
deriving DecidableEq

/-- Model of `mirror::FileDB::getFiles` at map level: the children the
manifest lists for a directory, in row order. -/
def getFiles (db : List DbRow) (dirNameU8 : List Char) : List (List Char × FileRecord) :=
  (db.filter (fun r => decide (r.dir = dirNameU8))).map (fun r => (r.file, r.data))

/-- Model of `mirror::FileDB::getDirs`: the distinct directory keys. -/
def getDirs (db : List DbRow) : List (List Char) :=
  (db.map DbRow.dir).dedup

/-- Lookup in a per-directory expected map
(`ctxs.top().find(PathKey(...))`). -/
def lookupKey (ctx : List (List Char × FileRecord)) (key : List Char) : Option FileRecord :=
  (ctx.find? (fun e => decide (e.1 = key))).map Prod.snd

/-- Removal of a key from a per-directory expected map
(`ctxs.top().erase(dbEntry)`); map keys are unique, so removing every
binding of the key matches erasing the found entry. -/
def eraseKey (ctx : List (List Char × FileRecord)) (key : List Char) :
    List (List Char × FileRecord) :=
  ctx.filter (fun e => !(decide (e.1 = key)))

/-- Reporter calls and handler milestones observed during a
checkFileSystem walk, in order: dirStart entry (the `Entering` log),
the dirEnd processing of a directory, `newFileFound`, `fileNotFound`, and
a `checkFileMismatch` call with its verdict. -/
inductive Event where
  | dirStartE (relDir : List Char)
  | dirEndE (relDir : List Char)
  | newFileE (type : FileType) (relPath : List Char)
  | fileNotFoundE (type : FileType) (relPath : List Char)
  | checkE (relPath : List Char) (fullMatch : Bool)
deriving DecidableEq

/-- State of the checkFileSystem event handler (src/mirror/utils.hpp,
lines 799-886): the set of manifest directories not yet entered
(`dbDirs`), the stack of per-directory expected maps (`ctxs`), and the
trace of reporter calls. -/
structure CheckHState where
  dbDirs : List (List Char)
  ctxs : List (List (List Char × FileRecord))
  events : List Event
deriving DecidableEq

/-- Translation of the EventHandler of `mirror::checkFileSystem`
(src/mirror/utils.hpp, lines 799-886), parameterised by the manifest and
by the reporter's `checkFileMismatch` (the only reporter method whose
return value steers the walk; the other reporter methods are recorded as
events).  dirStart: erase the relative directory from `dbDirs` and push
the manifest's listing of it.  dirEnd: report `fileNotFound(type,
relPath)` for every entry remaining in the top map, then pop.  file: look
the entry's name up in the top map; if absent report `newFileFound` and
return false; otherwise build the actual record, call
`checkFileMismatch`, erase the matched entry, and return its verdict. -/
def checkHandler (db : List DbRow) (chk : FileRecord → FileRecord → Bool) :
    MHandler CheckHState where
  dirStart := fun s path relDirOffset =>
    let relDir := path.drop relDirOffset
    { dbDirs := s.dbDirs.filter (fun d => !(decide (d = relDir)))
      ctxs := getFiles db relDir :: s.ctxs
      events := s.events ++ [Event.dirStartE relDir] }
  dirEnd := fun s path relDirOffset =>
    match s.ctxs with
    | [] => s
    | ctx :: rest =>
      { dbDirs := s.dbDirs
        ctxs := rest
        events := s.events ++
          ctx.map (fun e => Event.fileNotFoundE e.2.type (path.drop relDirOffset ++ e.1)) ++
          [Event.dirEndE (path.drop relDirOffset)] }
  fileEv := fun s info path relPathOffset fileNameOffset =>
    let relPath := path.drop relPathOffset
    let fileName := path.drop fileNameOffset
    match s.ctxs with
    | [] => (s, false)
    | ctx :: rest =>
      match lookupKey ctx fileName with
      | none =>
        let type := if info.isDir then FileType.dir else FileType.file
        ({ s with events := s.events ++ [Event.newFileE type relPath] }, false)
      | some expectedFileRecord =>
        let fileRecord := if info.isDir then dirRecord else fillRegularFileRecord info
        let fullMatch := chk expectedFileRecord fileRecord
        ({ dbDirs := s.dbDirs
           ctxs := eraseKey ctx fileName :: rest
           events := s.events ++ [Event.checkE relPath fullMatch] }, fullMatch)

/-- State of the createDB event handler: the addFile calls issued. -/
structure CreateHState where
  adds : List DbAdd
deriving DecidableEq

/-- Translation of the EventHandler of `mirror::createDB`
(src/mirror/utils.cpp, lines 377-417): dirStart and dirEnd do nothing;
file builds the record, splits the relative path into directory and file
name (`relDirSize = fileNameOffset - relDirOffset`, minus one for the
separator when positive), issues `addFile`, and returns true
unconditionally. -/
def createDBHandler : MHandler CreateHState where
  dirStart := fun s _ _ => s
  dirEnd := fun s _ _ => s
  fileEv := fun s info path relDirOffset fileNameOffset =>
    let fileRecord := if info.isDir then dirRecord else fillRegularFileRecord info
    let fileName := path.drop fileNameOffset
    let relDirSize :=
      fileNameOffset - relDirOffset - (if 0 < fileNameOffset - relDirOffset then 1 else 0)
    let relDir := (path.drop relDirOffset).take relDirSize
    ({ adds := s.adds ++ [DbAdd.mk fileName relDir fileRecord] }, true)

/-- Assembly of `mirror::checkFileSystem` (src/mirror/utils.hpp, lines
792-897): build the handler state with `db.getDirs(dbDirs)`, an empty
context stack and no events, then run the walk. -/
def checkFileSystem (rootDir : List Char) (rootDirSize : Nat) (db : List DbRow)
    (chk : FileRecord → FileRecord → Bool) (root : FsNode) : Option (WSt CheckHState) :=
  scanFilesTop (checkHandler db chk) (CheckHState.mk (getDirs db) [] []) rootDir rootDirSize root

/-- True when the walker hands the entry to the event handler: regular
files whose fstat succeeds and directories; symbolic links are resolved
first (the per-entry openat has no O_NOFOLLOW); other node kinds are
skipped. -/
def handledEntry : FsNode → Bool
  | FsNode.fileN _ _ _ statFails => !statFails
  | FsNode.dirN _ => true
  | FsNode.symlinkN target => handledEntry target
  | FsNode.otherN => false

mutual
/-- True when no fstat in the subtree fails: the error-free executions of
the walk. -/
def cleanNode : FsNode → Bool
  | FsNode.fileN _ _ _ statFails => !statFails
  | FsNode.dirN entries => cleanEntries entries
  | FsNode.symlinkN target => cleanNode target
  | FsNode.otherN => true
/-- Conjunction of `cleanNode` over a list of entries. -/
def cleanEntries : FsEntries → Bool
  | FsEntries.nil => true
  | FsEntries.cons _ node rest => cleanNode node && cleanEntries rest
end

/-- Names of the entries of one directory that the walk passes to the
event handler (non-dot names of regular files and directories). -/
def encNames : FsEntries → List (List Char)
  | FsEntries.nil => []
  | FsEntries.cons name node rest =>
      if isDotName name then encNames rest
      else if handledEntry node then name :: encNames rest
      else encNames rest

/-- Evolution of a per-directory expected map across the walk of the
directory's entries: each entry handed to the event handler erases its
name from the map. -/
def processNames : List (List Char × FileRecord) → FsEntries → List (List Char × FileRecord)
  | ctx, FsEntries.nil => ctx
  | ctx, FsEntries.cons name node rest =>
      if isDotName name then processNames ctx rest
      else if handledEntry node then processNames (eraseKey ctx name) rest
      else processNames ctx rest

/-- Example tree for the descriptor-leak counterexample: a root directory
with one regular file whose fstat fails with EACCES. -/
def leakTree : FsNode :=
  FsNode.dirN (FsEntries.cons ['b', 'a', 'd'] (FsNode.fileN 0 0 [] true) FsEntries.nil)

/-- Example directory standing for a tree outside the walk root (think of
`/`), holding one regular file. -/
def escapeTarget : FsNode :=
  FsNode.dirN
    (FsEntries.cons ['x'] (FsNode.fileN 3 7 [1, 2, 3, 4, 5, 6, 7, 8] false) FsEntries.nil)

/-- Example tree for the symlink-escape counterexample: the root contains a
single symbolic link `s` whose target is `escapeTarget`. -/
def escapeTree : FsNode :=
  FsNode.dirN (FsEntries.cons ['s'] (FsNode.symlinkN escapeTarget) FsEntries.nil)

/-- C1 counterexample: two FILE records that differ in size.  The merge
reporter's checkFileMismatch (a `TODO implement me` stub) returns true for
them although they are unequal under the spec's comparison rule, while the
verify reporter returns false; so the claim's statement that
checkFileMismatch "returns true exactly when the two records are equal
under this comparison rule" fails for MergeDirMismatchHandler. -/
theorem mergeCheckFileMismatch_not_comparison_rule :
    mergeCheckFileMismatch
        (FileRecord.mk FileType.file [0, 0, 0, 0, 0, 0, 0, 0] 1000 1)
        (FileRecord.mk FileType.file [0, 0, 0, 0, 0, 0, 0, 0] 1000 2) = true ∧
    specRecordsEqual
        (FileRecord.mk FileType.file [0, 0, 0, 0, 0, 0, 0, 0] 1000 1)
        (FileRecord.mk FileType.file [0, 0, 0, 0, 0, 0, 0, 0] 1000 2) = false ∧
    verifyCheckFileMismatch
        (FileRecord.mk FileType.file [0, 0, 0, 0, 0, 0, 0, 0] 1000 1)
        (FileRecord.mk FileType.file [0, 0, 0, 0, 0, 0, 0, 0] 1000 2) = false := by
  decide

/-- C1 (amended): the verify reporter's checkFileMismatch returns true
exactly when the two records are equal under the spec's comparison rule
(type always compared; size, mtime and digest compared only between FILE
records); the merge reporter's checkFileMismatch is an unimplemented stub
that returns true for every pair of records, reporting nothing. -/
theorem checkFileMismatch_comparison_rule :
    (∀ expected actual : FileRecord,
        verifyCheckFileMismatch expected actual = specRecordsEqual expected actual) ∧
    (∀ expected actual : FileRecord, mergeCheckFileMismatch expected actual = true) := by
  refine ⟨fun expected actual => ?_, fun _ _ => rfl⟩
  obtain ⟨t1, c1, m1, s1⟩ := expected
  obtain ⟨t2, c2, m2, s2⟩ := actual
  cases t1 <;> cases t2 <;>
    simp [verifyCheckFileMismatch, specRecordsEqual, eq_comm]

/-- Helper: replaying addFile calls inside the transaction leaves the
committed contents untouched. -/
theorem foldl_txAddFile_committed (adds : List DbAdd) :
    ∀ db : TxDB, (adds.foldl txAddFile db).committed = db.committed := by
  induction adds with
  | nil => intro db; rfl
  | cons a rest ih => intro db; simpa [txAddFile] using ih (txAddFile db a)

/-- Helper: replaying addFile calls inside an open transaction applies the
row mutations to the working copy. -/
theorem foldl_txAddFile_tx (adds : List DbAdd) :
    ∀ (db : TxDB) (rows : List FileRow), db.tx = some rows →
      (adds.foldl txAddFile db).tx =
        some (adds.foldl (fun rs a => dbAddFile rs a.fileNameU8 a.dirNameU8 a.data) rows) := by
  induction adds with
  | nil => intro db rows h; simpa using h
  | cons a rest ih =>
    intro db rows h
    simpa using ih (txAddFile db a) (dbAddFile rows a.fileNameU8 a.dirNameU8 a.data)
      (by simp [txAddFile, h])

/-- C4: createDB wraps the walk in a single transaction.  It calls
beginTransaction first; if the walk throws after issuing any list of
addFile calls, rollback runs, the error is re-raised, the committed
manifest contents are exactly the pre-invocation contents, and no commit
is executed; if the walk completes, the trace ends in commit and the
committed contents are the replayed mutations. -/
theorem createDB_transactional :
    ∀ (db : TxDB) (adds : List DbAdd),
      ((createDB db adds true).1.committed = db.committed ∧
        (createDB db adds true).2.2 = true ∧
        (createDB db adds true).2.1 = TxOp.beginT :: (adds.map TxOp.addT ++ [TxOp.rollbackT]) ∧
        TxOp.commitT ∉ (createDB db adds true).2.1) ∧
      ((createDB db adds false).1.committed = appliedRows db adds ∧
        (createDB db adds false).2.2 = false ∧
        (createDB db adds false).2.1 =
          TxOp.beginT :: (adds.map TxOp.addT ++ [TxOp.commitT])) := by
  intro db adds
  refine ⟨⟨?_, rfl, rfl, ?_⟩, ⟨?_, rfl, rfl⟩⟩
  · simp [createDB, rollback, foldl_txAddFile_committed, beginTransaction]
  · simp [createDB]
  · have htx := foldl_txAddFile_tx adds (beginTransaction db) db.committed (by simp [beginTransaction])
    simp [createDB, commit, htx, appliedRows]

/-- C6: the copy loop of copyFile never terminates on an error-free run,
whatever the source size: the source checks `n == -1` and `m < n` but
never `n == 0`, so after the last byte every further read returns 0, the
0-byte write succeeds, and the loop repeats forever; no iteration bound
makes it return.  The claim that copyFile terminates and returns true
after copying is contradicted by the code. -/
theorem copyFile_loop_never_returns :
    ∀ fuel remaining : Nat, copyFileLoop fuel remaining = none := by
  intro fuel
  induction fuel with
  | zero => intro remaining; rfl
  | succ n ih => intro remaining; simpa [copyFileLoop] using ih (remaining - min 4096 remaining)

/-- C7: a FILE record written by addFile stores `millis / 1000` (C++
truncating division) in the last_modified column, and the record read back
by getFiles carries that seconds value times 1000 as its milliseconds, so
the read-back milliseconds are always divisible by 1000. -/
theorem addFile_getFiles_lastModified_roundTrip :
    ∀ (fileNameU8 dirNameU8 : List Char) (r : FileRecord), r.type = FileType.file →
      (addFileRow fileNameU8 dirNameU8 r).last_modified =
          some (Int.tdiv r.lastModifiedMillis 1000) ∧
      (readFileRecord (addFileRow fileNameU8 dirNameU8 r)).lastModifiedMillis =
          Int.tdiv r.lastModifiedMillis 1000 * 1000 ∧
      (readFileRecord (addFileRow fileNameU8 dirNameU8 r)).lastModifiedMillis % 1000 = 0 := by
  intro f d r h
  obtain ⟨t, c, m, s⟩ := r
  cases t
  · refine ⟨rfl, rfl, ?_⟩
    simp [readFileRecord, addFileRow, FileType.toColumn, Int.mul_emod_left]
  · exact absurd h (by simp)

/-- Witness for C7 at a concrete FILE record with timestamp 12345 ms. -/
theorem addFile_getFiles_lastModified_roundTrip_witness :
    (FileRecord.mk FileType.file [0, 0, 0, 0, 0, 0, 0, 0] 12345 1).type = FileType.file ∧
    ((addFileRow ['a'] [] (FileRecord.mk FileType.file [0, 0, 0, 0, 0, 0, 0, 0] 12345 1)
        ).last_modified = some (Int.tdiv 12345 1000) ∧
      (readFileRecord (addFileRow ['a'] []
          (FileRecord.mk FileType.file [0, 0, 0, 0, 0, 0, 0, 0] 12345 1))).lastModifiedMillis =
        Int.tdiv 12345 1000 * 1000 ∧
      (readFileRecord (addFileRow ['a'] []
          (FileRecord.mk FileType.file [0, 0, 0, 0, 0, 0, 0, 0] 12345 1))).lastModifiedMillis %
          1000 = 0) :=
  ⟨rfl, addFile_getFiles_lastModified_roundTrip ['a'] []
    (FileRecord.mk FileType.file [0, 0, 0, 0, 0, 0, 0, 0] 12345 1) rfl⟩

/-- C8: addFile binds the three value columns null for a DIR record and
binds all of them for a FILE record, and the per-row null-column invariant
is preserved by the only mutation of the table, the insert-or-replace
issued by addFile. -/
theorem addFile_null_binding_invariant :
    ∀ (fileNameU8 dirNameU8 : List Char) (r : FileRecord) (rows : List FileRow),
      (r.type = FileType.dir →
        (addFileRow fileNameU8 dirNameU8 r).size = none ∧
        (addFileRow fileNameU8 dirNameU8 r).last_modified = none ∧
        (addFileRow fileNameU8 dirNameU8 r).crc64 = none) ∧
      (r.type = FileType.file →
        (addFileRow fileNameU8 dirNameU8 r).size = some r.fileSize ∧
        (addFileRow fileNameU8 dirNameU8 r).last_modified =
          some (Int.tdiv r.lastModifiedMillis 1000) ∧
        (addFileRow fileNameU8 dirNameU8 r).crc64 = some r.crc64) ∧
      (dbOk rows = true → dbOk (dbAddFile rows fileNameU8 dirNameU8 r) = true) := by
  intro f d r rows
  refine ⟨fun h => ?_, fun h => ?_, fun h => ?_⟩
  · obtain ⟨t, c, m, s⟩ := r
    cases t
    · exact absurd h (by simp)
    · exact ⟨rfl, rfl, rfl⟩
  · obtain ⟨t, c, m, s⟩ := r
    cases t
    · exact ⟨rfl, rfl, rfl⟩
    · exact absurd h (by simp)
  · simp only [dbOk, dbAddFile, List.all_append, List.all_eq_true, Bool.and_eq_true] at h ⊢
    refine ⟨fun row hrow => h row (List.mem_of_mem_filter hrow), ?_⟩
    intro row hrow
    simp only [List.mem_singleton] at hrow
    subst hrow
    obtain ⟨t, c, m, s⟩ := r
    cases t <;> simp [addFileRow, fileRowOk, FileType.toColumn]

/-- Witness for C8 at a concrete DIR record, a concrete FILE record and a
one-row table. -/
theorem addFile_null_binding_invariant_witness :
    ((FileRecord.mk FileType.dir [] 0 0).type = FileType.dir →
      (addFileRow ['s'] [] (FileRecord.mk FileType.dir [] 0 0)).size = none ∧
      (addFileRow ['s'] [] (FileRecord.mk FileType.dir [] 0 0)).last_modified = none ∧
      (addFileRow ['s'] [] (FileRecord.mk FileType.dir [] 0 0)).crc64 = none) ∧
    ((FileRecord.mk FileType.dir [] 0 0).type = FileType.file →
      (addFileRow ['s'] [] (FileRecord.mk FileType.dir [] 0 0)).size =
        some (FileRecord.mk FileType.dir [] 0 0).fileSize ∧
      (addFileRow ['s'] [] (FileRecord.mk FileType.dir [] 0 0)).last_modified =
        some (Int.tdiv (FileRecord.mk FileType.dir [] 0 0).lastModifiedMillis 1000) ∧
      (addFileRow ['s'] [] (FileRecord.mk FileType.dir [] 0 0)).crc64 =
        some (FileRecord.mk FileType.dir [] 0 0).crc64) ∧
    (dbOk [addFileRow ['a'] [] (FileRecord.mk FileType.file [0, 0, 0, 0, 0, 0, 0, 0] 7000 3)] =
        true →
      dbOk (dbAddFile [addFileRow ['a'] []
            (FileRecord.mk FileType.file [0, 0, 0, 0, 0, 0, 0, 0] 7000 3)] ['s'] []
          (FileRecord.mk FileType.dir [] 0 0)) = true) :=
  addFile_null_binding_invariant ['s'] [] (FileRecord.mk FileType.dir [] 0 0)
    [addFileRow ['a'] [] (FileRecord.mk FileType.file [0, 0, 0, 0, 0, 0, 0, 0] 7000 3)]

/-- C10: scanFiles reads `rootDir[rootDirSize - 1]` before any bounds
check; `rootDirSize - 1` is size_t arithmetic, so for `rootDirSize = 0`
the index wraps to 2^64 - 1, outside any real buffer (undefined
behaviour), and the walk is well-defined only when `rootDirSize ≥ 1`.
Under that precondition at most one trailing '/' is stripped, so a root
ending in "//" enters the walk with a trailing '/' still in the path
buffer. -/
theorem scanFiles_root_normalisation :
    ∀ (rootDir : List Char) (rootDirSize : Nat),
      (rootDirSize = 0 → rootDir.length < 2 ^ 64 →
        normalisedRootSize rootDir rootDirSize = none) ∧
      (1 ≤ rootDirSize → rootDirSize ≤ rootDir.length → rootDir.length < 2 ^ 64 →
        ∃ n, normalisedRootSize rootDir rootDirSize = some n ∧
          rootDirSize - 1 ≤ n ∧ n ≤ rootDirSize ∧
          (rootDir[rootDirSize - 1]? = some '/' → rootDir[rootDirSize - 2]? = some '/' →
            2 ≤ rootDirSize →
            n = rootDirSize - 1 ∧ (rootDir.take n)[n - 1]? = some '/')) := by
  intro rootDir rootDirSize
  have h64 : (2 : ℕ) ^ 64 = 18446744073709551616 := by norm_num
  constructor
  · intro h0 hlen
    subst h0
    have hnone : rootDir[(0 + (2 ^ 64 - 1)) % 2 ^ 64]? = none := by
      refine List.getElem?_eq_none ?_
      rw [h64] at hlen ⊢
      omega
    unfold normalisedRootSize
    rw [hnone]
  · intro h1 hle hlen
    have hidx : (rootDirSize + (2 ^ 64 - 1)) % 2 ^ 64 = rootDirSize - 1 := by
      rw [h64] at hlen ⊢
      omega
    have hlt : rootDirSize - 1 < rootDir.length := by omega
    obtain ⟨c, hc⟩ : ∃ c, rootDir[rootDirSize - 1]? = some c :=
      ⟨rootDir[rootDirSize - 1], List.getElem?_eq_getElem hlt⟩
    by_cases hslash : c = '/'
    · refine ⟨rootDirSize - 1, ?_, by omega, by omega, ?_⟩
      · unfold normalisedRootSize
        rw [hidx, hc]
        simp [hslash]
      · intro _ h2 hge
        refine ⟨rfl, ?_⟩
        have htake : (rootDir.take (rootDirSize - 1))[rootDirSize - 1 - 1]? =
            rootDir[rootDirSize - 1 - 1]? := by
          rw [List.getElem?_take_of_lt (by omega)]
        rw [htake]
        have heq : rootDirSize - 1 - 1 = rootDirSize - 2 := by omega
        rw [heq]
        exact h2
    · refine ⟨rootDirSize, ?_, by omega, by omega, ?_⟩
      · unfold normalisedRootSize
        rw [hidx, hc]
        simp [hslash]
      · intro hslash' _ _
        rw [hc] at hslash'
        exact absurd (Option.some_injective _ hslash') hslash

/-- Helper: dropping everything but the entry name off the path buffer
yields the name (`fileName = path.begin() + fileNameOffset`). -/
theorem drop_append_len (p n : List Char) :
    (p ++ n).drop ((p ++ n).length - n.length) = n := by
  have h : (p ++ n).length - n.length = p.length := by simp
  rw [h, List.drop_left]

/-- Helper: cutting the entry name back off the path buffer restores it. -/
theorem take_append_len (p n : List Char) :
    (p ++ n).take ((p ++ n).length - n.length) = p := by
  have h : (p ++ n).length - n.length = p.length := by simp
  rw [h, List.take_left]

/-- Helper: cutting a directory name and its trailing slash back off the
path buffer restores the parent path (`path.resize(path.size() -
dirNameSize - 1)`). -/
theorem take_append_slash (p n : List Char) :
    ((p ++ n) ++ ['/']).take (((p ++ n) ++ ['/']).length - n.length - 1) = p := by
  have h : ((p ++ n) ++ ['/']).length - n.length - 1 = p.length := by
    simp
    omega
  rw [h, List.append_assoc, List.take_left]

/-- Helper: erasing a key that the expected map does not hold leaves the
map unchanged. -/
theorem eraseKey_of_lookupKey_none (ctx : List (List Char × FileRecord)) (key : List Char)
    (h : lookupKey ctx key = none) : eraseKey ctx key = ctx := by
  have hfind : ctx.find? (fun e => decide (e.1 = key)) = none := by
    unfold lookupKey at h
    exact Option.map_eq_none'.mp h
  rw [List.find?_eq_none] at hfind
  unfold eraseKey
  rw [List.filter_eq_self]
  intro e he
  simpa using hfind e he

/-- Helper: the expected map left over after walking a directory's entries
consists exactly of the listed entries whose names the walk never handed
to the event handler. -/
theorem processNames_eq_filter :
    ∀ (entries : FsEntries) (ctx : List (List Char × FileRecord)),
      processNames ctx entries =
        ctx.filter (fun e => !(decide (e.1 ∈ encNames entries)))
  | FsEntries.nil, ctx => by
      simp [processNames, encNames]
  | FsEntries.cons name node rest, ctx => by
      by_cases hdot : isDotName name = true
      · rw [show processNames ctx (FsEntries.cons name node rest) = processNames ctx rest by
          simp [processNames, hdot]]
        rw [processNames_eq_filter rest ctx]
        simp [encNames, hdot]
      · by_cases hh : handledEntry node = true
        · rw [show processNames ctx (FsEntries.cons name node rest) =
              processNames (eraseKey ctx name) rest by simp [processNames, hdot, hh]]
          rw [processNames_eq_filter rest (eraseKey ctx name)]
          unfold eraseKey
          rw [List.filter_filter]
          refine List.filter_congr ?_
          intro e _
          simp only [encNames, hdot, hh, if_false, if_true, Bool.if_false_left]
          by_cases h1 : e.1 = name <;> by_cases h2 : e.1 ∈ encNames rest <;>
            simp [h1, h2, List.mem_cons]
        · rw [show processNames ctx (FsEntries.cons name node rest) = processNames ctx rest by
            simp [processNames, hdot, hh]]
          rw [processNames_eq_filter rest ctx]
          refine List.filter_congr ?_
          intro e _
          simp only [encNames, hdot, hh, if_false]
          rfl


/-- Helper: evaluation of the checkFileSystem handler's dirStart. -/
theorem checkHandler_dirStart_eval (db : List DbRow) (chk : FileRecord → FileRecord → Bool)
    (s : CheckHState) (path : List Char) (relDirOffset : Nat) :
    (checkHandler db chk).dirStart s path relDirOffset =
      CheckHState.mk (s.dbDirs.filter (fun d => !(decide (d = path.drop relDirOffset))))
        (getFiles db (path.drop relDirOffset) :: s.ctxs)
        (s.events ++ [Event.dirStartE (path.drop relDirOffset)]) :=
  rfl

/-- Helper: evaluation of the checkFileSystem handler's dirEnd on a state
whose context stack is known to be non-empty. -/
theorem checkHandler_dirEnd_eval (db : List DbRow) (chk : FileRecord → FileRecord → Bool)
    (s : CheckHState) (path : List Char) (relDirOffset : Nat)
    (ctx : List (List Char × FileRecord)) (rest : List (List (List Char × FileRecord)))
    (h : s.ctxs = ctx :: rest) :
    (checkHandler db chk).dirEnd s path relDirOffset =
      CheckHState.mk s.dbDirs rest
        (s.events ++
          ctx.map (fun e => Event.fileNotFoundE e.2.type (path.drop relDirOffset ++ e.1)) ++
          [Event.dirEndE (path.drop relDirOffset)]) := by
  obtain ⟨dbDirs0, ctxs0, events0⟩ := s
  simp only at h
  subst h
  rfl

/-- Helper: evaluation of the checkFileSystem handler's file callback when
the entry's name is not in the top expected map. -/
theorem checkHandler_fileEv_none (db : List DbRow) (chk : FileRecord → FileRecord → Bool)
    (s : CheckHState) (info : EntryInfo) (path : List Char)
    (relPathOffset fileNameOffset : Nat) (ctx : List (List Char × FileRecord))
    (rest : List (List (List Char × FileRecord)))
    (h : s.ctxs = ctx :: rest) (hl : lookupKey ctx (path.drop fileNameOffset) = none) :
    (checkHandler db chk).fileEv s info path relPathOffset fileNameOffset =
      (CheckHState.mk s.dbDirs s.ctxs
        (s.events ++
          [Event.newFileE (if info.isDir then FileType.dir else FileType.file)
            (path.drop relPathOffset)]),
        false) := by
  obtain ⟨dbDirs0, ctxs0, events0⟩ := s
  simp only at h
  subst h
  simp [checkHandler, hl]

/-- Helper: evaluation of the checkFileSystem handler's file callback when
the entry's name is found in the top expected map. -/
theorem checkHandler_fileEv_some (db : List DbRow) (chk : FileRecord → FileRecord → Bool)
    (s : CheckHState) (info : EntryInfo) (path : List Char)
    (relPathOffset fileNameOffset : Nat) (ctx : List (List Char × FileRecord))
    (rest : List (List (List Char × FileRecord))) (expectedFileRecord : FileRecord)
    (h : s.ctxs = ctx :: rest)
    (hl : lookupKey ctx (path.drop fileNameOffset) = some expectedFileRecord) :
    (checkHandler db chk).fileEv s info path relPathOffset fileNameOffset =
      (CheckHState.mk s.dbDirs (eraseKey ctx (path.drop fileNameOffset) :: rest)
        (s.events ++
          [Event.checkE (path.drop relPathOffset)
            (chk expectedFileRecord
              (if info.isDir then dirRecord else fillRegularFileRecord info))]),
        chk expectedFileRecord
          (if info.isDir then dirRecord else fillRegularFileRecord info)) := by
  obtain ⟨dbDirs0, ctxs0, events0⟩ := s
  simp only at h
  subst h
  simp [checkHandler, hl]

mutual
/-- Helper (frame property of one entry): walking one non-dot entry of a
directory with the checkFileSystem handler erases exactly the entry's name
from the top expected map when the entry is handed to the handler (and
nothing when it is skipped), leaves the rest of the context stack and the
path buffer unchanged, and only appends events. -/
theorem walkEntry_check_frame (db : List DbRow) (chk : FileRecord → FileRecord → Bool)
    (relPathOffset dirFd : Nat) :
    ∀ (node : FsNode) (name : List Char) (st : WSt CheckHState)
      (ctx : List (List Char × FileRecord)) (rest : List (List (List Char × FileRecord))),
      cleanNode node = true → st.hs.ctxs = ctx :: rest →
      (walkEntry (checkHandler db chk) relPathOffset dirFd name node st).hs.ctxs =
        (if handledEntry node then eraseKey ctx name else ctx) :: rest ∧
      (walkEntry (checkHandler db chk) relPathOffset dirFd name node st).path = st.path ∧
      ∃ evs, (walkEntry (checkHandler db chk) relPathOffset dirFd name node st).hs.events =
        st.hs.events ++ evs
  | FsNode.symlinkN target, name, st, ctx, rest, hclean, hctx => by
      have ih := walkEntry_check_frame db chk relPathOffset dirFd target name st ctx rest
        (by simpa [cleanNode] using hclean) hctx
      simpa [walkEntry, handledEntry] using ih
  | FsNode.fileN fileSize mtimeSec digest statFails, name, st, ctx, rest, hclean, hctx => by
      have hsf : statFails = false := by simpa [cleanNode] using hclean
      subst hsf
      obtain ⟨⟨dbDirs0, ctxs0, events0⟩, path0, nextFd0, opened0, closed0⟩ := st
      simp only at hctx
      subst hctx
      rcases hl : lookupKey ctx name with _ | expectedFileRecord
      · have hl' : lookupKey ctx
            ((path0 ++ name).drop ((path0 ++ name).length - name.length)) = none := by
          rw [drop_append_len]; exact hl
        simp only [walkEntry, Bool.false_eq_true, if_false,
          checkHandler_fileEv_none db chk (CheckHState.mk dbDirs0 (ctx :: rest) events0)
            (EntryInfo.mk false fileSize mtimeSec digest) (path0 ++ name) relPathOffset
            ((path0 ++ name).length - name.length) ctx rest rfl hl',
          handledEntry, Bool.not_false, if_true]
        exact ⟨by rw [eraseKey_of_lookupKey_none ctx name hl], take_append_len path0 name,
          ⟨_, rfl⟩⟩
      · have hl' : lookupKey ctx
            ((path0 ++ name).drop ((path0 ++ name).length - name.length)) =
            some expectedFileRecord := by
          rw [drop_append_len]; exact hl
        simp only [walkEntry, Bool.false_eq_true, if_false,
          checkHandler_fileEv_some db chk (CheckHState.mk dbDirs0 (ctx :: rest) events0)
            (EntryInfo.mk false fileSize mtimeSec digest) (path0 ++ name) relPathOffset
            ((path0 ++ name).length - name.length) ctx rest expectedFileRecord rfl hl',
          handledEntry, Bool.not_false, if_true, drop_append_len]
        exact ⟨trivial, take_append_len path0 name, ⟨_, rfl⟩⟩
  | FsNode.dirN entries, name, st, ctx, rest, hclean, hctx => by
      have hce : cleanEntries entries = true := by simpa [cleanNode] using hclean
      obtain ⟨⟨dbDirs0, ctxs0, events0⟩, path0, nextFd0, opened0, closed0⟩ := st
      simp only at hctx
      subst hctx
      rcases hl : lookupKey ctx name with _ | expectedFileRecord
      · have hl' : lookupKey ctx
            ((path0 ++ name).drop ((path0 ++ name).length - name.length)) = none := by
          rw [drop_append_len]; exact hl
        simp only [walkEntry,
          checkHandler_fileEv_none db chk (CheckHState.mk dbDirs0 (ctx :: rest) events0)
            (EntryInfo.mk true 0 0 []) (path0 ++ name) relPathOffset
            ((path0 ++ name).length - name.length) ctx rest rfl hl',
          handledEntry, if_true, Bool.false_eq_true, if_false]
        exact ⟨by rw [eraseKey_of_lookupKey_none ctx name hl], take_append_len path0 name,
          ⟨_, rfl⟩⟩
      · have hl' : lookupKey ctx
            ((path0 ++ name).drop ((path0 ++ name).length - name.length)) =
            some expectedFileRecord := by
          rw [drop_append_len]; exact hl
        by_cases hm : chk expectedFileRecord dirRecord = true
        · simp only [walkEntry,
            checkHandler_fileEv_some db chk (CheckHState.mk dbDirs0 (ctx :: rest) events0)
              (EntryInfo.mk true 0 0 []) (path0 ++ name) relPathOffset
              ((path0 ++ name).length - name.length) ctx rest expectedFileRecord rfl hl',
            checkHandler_dirStart_eval, handledEntry, if_true, drop_append_len, hm,
            eq_self_iff_true]
          obtain ⟨h4, h5, evs2, h6⟩ := walkEntries_check_frame db chk relPathOffset nextFd0
            entries
            (WSt.mk
              (CheckHState.mk
                (dbDirs0.filter
                  (fun d => !(decide (d = (path0 ++ name).drop relPathOffset))))
                (getFiles db ((path0 ++ name).drop relPathOffset) ::
                  (eraseKey ctx name :: rest))
                ((events0 ++ [Event.checkE ((path0 ++ name).drop relPathOffset) true]) ++
                  [Event.dirStartE ((path0 ++ name).drop relPathOffset)]))
              ((path0 ++ name) ++ ['/']) (nextFd0 + 1) (opened0 ++ [nextFd0]) closed0)
            (getFiles db ((path0 ++ name).drop relPathOffset))
            (eraseKey ctx name :: rest) hce rfl
          rw [checkHandler_dirEnd_eval db chk _ _ relPathOffset _ _ h4]
          simp only [h5, h6]
          refine ⟨trivial, take_append_slash path0 name,
            ⟨[Event.checkE ((path0 ++ name).drop relPathOffset) true] ++
              [Event.dirStartE ((path0 ++ name).drop relPathOffset)] ++ evs2 ++
              List.map
                (fun e => Event.fileNotFoundE e.2.type
                  (((path0 ++ name) ++ ['/']).drop relPathOffset ++ e.1))
                (processNames (getFiles db ((path0 ++ name).drop relPathOffset)) entries) ++
              [Event.dirEndE (((path0 ++ name) ++ ['/']).drop relPathOffset)], ?_⟩⟩
          simp [List.append_assoc]
        · simp only [walkEntry,
            checkHandler_fileEv_some db chk (CheckHState.mk dbDirs0 (ctx :: rest) events0)
              (EntryInfo.mk true 0 0 []) (path0 ++ name) relPathOffset
              ((path0 ++ name).length - name.length) ctx rest expectedFileRecord rfl hl',
            handledEntry, if_true, drop_append_len, hm, Bool.false_eq_true, if_false,
            eq_self_iff_true]
          exact ⟨trivial, take_append_len path0 name, ⟨_, rfl⟩⟩
  | FsNode.otherN, name, st, ctx, rest, hclean, hctx => by
      obtain ⟨⟨dbDirs0, ctxs0, events0⟩, path0, nextFd0, opened0, closed0⟩ := st
      simp only at hctx
      subst hctx
      simp only [walkEntry, handledEntry, if_false, Bool.false_eq_true]
      exact ⟨trivial, take_append_len path0 name, ⟨[], by simp⟩⟩

/-- Helper (frame property of a directory's entries): walking a list of
entries with the checkFileSystem handler turns the top expected map into
`processNames` of it, leaves the rest of the stack and the path buffer
unchanged, and only appends events. -/
theorem walkEntries_check_frame (db : List DbRow) (chk : FileRecord → FileRecord → Bool)
    (relPathOffset dirFd : Nat) :
    ∀ (entries : FsEntries) (st : WSt CheckHState)
      (ctx : List (List Char × FileRecord)) (rest : List (List (List Char × FileRecord))),
      cleanEntries entries = true → st.hs.ctxs = ctx :: rest →
      (walkEntries (checkHandler db chk) relPathOffset dirFd entries st).hs.ctxs =
        processNames ctx entries :: rest ∧
      (walkEntries (checkHandler db chk) relPathOffset dirFd entries st).path = st.path ∧
      ∃ evs, (walkEntries (checkHandler db chk) relPathOffset dirFd entries st).hs.events =
        st.hs.events ++ evs
  | FsEntries.nil, st, ctx, rest, hclean, hctx => by
      simp only [walkEntries, processNames]
      exact ⟨by rw [hctx], trivial, ⟨[], by simp⟩⟩
  | FsEntries.cons name node rest', st, ctx, rest, hclean, hctx => by
      have hcn : cleanNode node = true := by
        simp only [cleanEntries, Bool.and_eq_true] at hclean
        exact hclean.1
      have hcr : cleanEntries rest' = true := by
        simp only [cleanEntries, Bool.and_eq_true] at hclean
        exact hclean.2
      by_cases hdot : isDotName name = true
      · simp only [walkEntries, hdot, if_true, processNames]
        exact walkEntries_check_frame db chk relPathOffset dirFd rest' st ctx rest hcr hctx
      · simp only [walkEntries, hdot, Bool.false_eq_true, if_false, processNames]
        obtain ⟨h1, h2, evs1, h3⟩ := walkEntry_check_frame db chk relPathOffset dirFd node name
          st ctx rest hcn hctx
        obtain ⟨h4, h5, evs2, h6⟩ := walkEntries_check_frame db chk relPathOffset dirFd rest'
          (walkEntry (checkHandler db chk) relPathOffset dirFd name node st)
          (if handledEntry node then eraseKey ctx name else ctx) rest hcr h1
        by_cases hh : handledEntry node = true
        · simp only [hh, if_true] at h4 ⊢
          exact ⟨h4, by rw [h5, h2], ⟨evs1 ++ evs2, by rw [h6, h3, List.append_assoc]⟩⟩
        · simp only [hh, Bool.false_eq_true, if_false] at h4 ⊢
          exact ⟨h4, by rw [h5, h2], ⟨evs1 ++ evs2, by rw [h6, h3, List.append_assoc]⟩⟩
end

/-- Helper: concatenation of two adjacent descriptor ranges. -/
theorem range_append_one (s m n : Nat) :
    List.range' s m ++ List.range' (s + m) n = List.range' s (m + n) := by
  have h := List.range'_append s m n 1
  rw [one_mul] at h
  rw [Nat.add_comm m n]
  exact h

mutual
/-- Helper (descriptor ledger of one entry): on an error-free subtree,
walking one entry allocates a contiguous block of descriptors, records
each of them in `opened`, and records a permutation of the same block in
`closed` - every descriptor obtained is released exactly once.  This holds
for any event handler. -/
theorem walkEntry_fd_ledger {σ : Type} (h : MHandler σ) (relPathOffset dirFd : Nat) :
    ∀ (node : FsNode) (name : List Char) (st : WSt σ),
      cleanNode node = true →
      ∃ k c,
        (walkEntry h relPathOffset dirFd name node st).nextFd = st.nextFd + k ∧
        (walkEntry h relPathOffset dirFd name node st).opened =
          st.opened ++ List.range' st.nextFd k ∧
        (walkEntry h relPathOffset dirFd name node st).closed = st.closed ++ c ∧
        c.Perm (List.range' st.nextFd k)
  | FsNode.symlinkN target, name, st, hclean => by
      have ih := walkEntry_fd_ledger h relPathOffset dirFd target name st
        (by simpa [cleanNode] using hclean)
      simpa [walkEntry] using ih
  | FsNode.fileN fileSize mtimeSec digest statFails, name, st, hclean => by
      have hsf : statFails = false := by simpa [cleanNode] using hclean
      subst hsf
      refine ⟨1, [st.nextFd], ?_, ?_, ?_, by simp⟩ <;>
        simp [walkEntry]
  | FsNode.dirN entries, name, st, hclean => by
      have hce : cleanEntries entries = true := by simpa [cleanNode] using hclean
      simp only [walkEntry]
      split
      · obtain ⟨k2, c2, h1, h2, h3, h4⟩ := walkEntries_fd_ledger h relPathOffset st.nextFd
          entries
          (WSt.mk
            (h.dirStart
              ((h.fileEv st.hs (EntryInfo.mk true 0 0 []) (st.path ++ name) relPathOffset
                ((st.path ++ name).length - name.length)).1)
              (st.path ++ name) relPathOffset)
            ((st.path ++ name) ++ ['/']) (st.nextFd + 1) (st.opened ++ [st.nextFd]) st.closed)
          hce
        refine ⟨k2 + 1, c2 ++ [st.nextFd], ?_, ?_, ?_, ?_⟩
        · simp only [h1]
          omega
        · simp only [h2]
          rw [List.range'_succ, List.append_assoc]
          rfl
        · simp only [h3]
          rw [List.append_assoc]
        · refine (List.perm_append_singleton st.nextFd c2).trans ?_
          rw [List.range'_succ]
          exact List.Perm.cons st.nextFd h4
      · refine ⟨1, [st.nextFd], ?_, ?_, ?_, by simp⟩ <;> simp
  | FsNode.otherN, name, st, hclean => by
      refine ⟨1, [st.nextFd], ?_, ?_, ?_, by simp⟩ <;>
        simp [walkEntry]

/-- Helper (descriptor ledger of a directory's entries): composition of
the per-entry ledgers. -/
theorem walkEntries_fd_ledger {σ : Type} (h : MHandler σ) (relPathOffset dirFd : Nat) :
    ∀ (entries : FsEntries) (st : WSt σ),
      cleanEntries entries = true →
      ∃ k c,
        (walkEntries h relPathOffset dirFd entries st).nextFd = st.nextFd + k ∧
        (walkEntries h relPathOffset dirFd entries st).opened =
          st.opened ++ List.range' st.nextFd k ∧
        (walkEntries h relPathOffset dirFd entries st).closed = st.closed ++ c ∧
        c.Perm (List.range' st.nextFd k)
  | FsEntries.nil, st, hclean => by
      exact ⟨0, [], by simp [walkEntries], by simp [walkEntries], by simp [walkEntries],
        by simp⟩
  | FsEntries.cons name node rest', st, hclean => by
      have hcn : cleanNode node = true := by
        simp only [cleanEntries, Bool.and_eq_true] at hclean
        exact hclean.1
      have hcr : cleanEntries rest' = true := by
        simp only [cleanEntries, Bool.and_eq_true] at hclean
        exact hclean.2
      by_cases hdot : isDotName name = true
      · simp only [walkEntries, hdot, if_true]
        exact walkEntries_fd_ledger h relPathOffset dirFd rest' st hcr
      · simp only [walkEntries, hdot, Bool.false_eq_true, if_false]
        obtain ⟨k1, c1, h1, h2, h3, h4⟩ := walkEntry_fd_ledger h relPathOffset dirFd node name
          st hcn
        obtain ⟨k2, c2, h5, h6, h7, h8⟩ := walkEntries_fd_ledger h relPathOffset dirFd rest'
          (walkEntry h relPathOffset dirFd name node st) hcr
        refine ⟨k1 + k2, c1 ++ c2, ?_, ?_, ?_, ?_⟩
        · rw [h5, h1]
          omega
        · rw [h6, h2, h1, List.append_assoc, range_append_one]
        · rw [h7, h3, List.append_assoc]
        · rw [← range_append_one]
          refine List.Perm.append h4 ?_
          rw [← h1]
          exact h8
end

/-- Helper: an open of the walk root with O_RDONLY | O_NOFOLLOW |
O_DIRECTORY succeeds only when the root itself is a directory (a
symbolic-link root is refused by O_NOFOLLOW, anything else by
O_DIRECTORY). -/
theorem openatNode_rootFlags (root n : FsNode)
    (h : openatNode rootOpenFlags root = some n) :
    ∃ entries, root = FsNode.dirN entries ∧ n = FsNode.dirN entries := by
  cases root with
  | fileN fileSize mtimeSec digest statFails =>
      exact absurd h (by simp [openatNode, rootOpenFlags, isDirNode])
  | dirN entries =>
      refine ⟨entries, rfl, ?_⟩
      have h' := h
      simp [openatNode, rootOpenFlags, isDirNode] at h'
      exact h'.symm
  | symlinkN target =>
      exact absurd h (by simp [openatNode, rootOpenFlags])
  | otherN =>
      exact absurd h (by simp [openatNode, rootOpenFlags, isDirNode])

/-- C9 counterexample: a root directory holding one regular file whose
fstat fails with EACCES.  The walk opens two descriptors (0 for the root,
1 for the entry) but releases only the root's: the `continue` taken on the
EACCES branch skips the `close(fd)` at the bottom of the loop, so
descriptor 1 is never released, contradicting the claim that every
descriptor obtained inside the walker is released exactly once on every
execution. -/
theorem scanFiles_leaks_descriptor_on_eacces :
    (scanFilesBuf createDBHandler leakTree (initialWSt (CreateHState.mk []) ['r'])).map
        WSt.opened = some [0, 1] ∧
    (scanFilesBuf createDBHandler leakTree (initialWSt (CreateHState.mk []) ['r'])).map
        WSt.closed = some [0] :=
  ⟨rfl, rfl⟩

/-- C9 (amended): on executions in which every fstat succeeds (and no
other error interrupts the walk), every file descriptor and directory
stream obtained inside the walker via open, openat, or fdopendir is
released exactly once before the walk returns: the descriptors opened are
pairwise distinct and the released list is a permutation of them.  This
holds for every event handler.  When an fstat fails with EACCES, however,
the walker's `continue` skips the close and the entry's descriptor leaks
(see the counterexample). -/
theorem scanFiles_releases_all_descriptors :
    ∀ (σ : Type) (h : MHandler σ) (s0 : σ) (rootPath : List Char) (root : FsNode)
      (st' : WSt σ),
      cleanNode root = true →
      scanFilesBuf h root (initialWSt s0 rootPath) = some st' →
      st'.opened.Nodup ∧ st'.closed.Perm st'.opened := by
  intro σ h s0 rootPath root st' hclean hscan
  unfold scanFilesBuf at hscan
  rcases hopen : openatNode rootOpenFlags root with _ | n
  · rw [hopen] at hscan
    exact absurd hscan (by simp)
  · rw [hopen] at hscan
    obtain ⟨entries, rfl, rfl⟩ := openatNode_rootFlags root n hopen
    have hce : cleanEntries entries = true := by simpa [cleanNode] using hclean
    simp only [initialWSt, List.nil_append, Nat.zero_add] at hscan
    obtain ⟨k, c, h1, h2, h3, h4⟩ := walkEntries_fd_ledger h
      (rootPath ++ ['/']).length 0 entries
      (WSt.mk (h.dirStart s0 rootPath rootPath.length) (rootPath ++ ['/']) 1 [0] []) hce
    rw [Option.some_inj] at hscan
    subst hscan
    constructor
    · rw [h2]
      show (([0] : List Nat) ++ List.range' 1 k).Nodup
      rw [show ([0] : List Nat) ++ List.range' 1 k = List.range' 0 (k + 1) by
        rw [List.range'_succ]
        rfl]
      exact List.nodup_range' 0 (k + 1)
    · rw [h2, h3]
      show ((([] : List Nat) ++ c) ++ [0]).Perm (([0] : List Nat) ++ List.range' 1 k)
      rw [List.nil_append]
      exact (List.perm_append_singleton 0 c).trans (List.Perm.cons 0 h4)

/-- Witness for C9 (amended) at a clean one-file tree: the walk opens
descriptors 0 (root) and 1 (the file) and closes 1 then 0. -/
theorem scanFiles_releases_all_descriptors_witness :
    cleanNode (FsNode.dirN (FsEntries.cons ['a'] (FsNode.fileN 0 0 [] false) FsEntries.nil)) =
        true ∧
    scanFilesBuf createDBHandler
        (FsNode.dirN (FsEntries.cons ['a'] (FsNode.fileN 0 0 [] false) FsEntries.nil))
        (initialWSt (CreateHState.mk []) ['r']) =
      some (WSt.mk
        (CreateHState.mk [DbAdd.mk ['a'] [] (FileRecord.mk FileType.file [] 0 0)])
        ['r', '/'] 2 [0, 1] [1, 0]) ∧
    ((WSt.mk (CreateHState.mk [DbAdd.mk ['a'] [] (FileRecord.mk FileType.file [] 0 0)])
        ['r', '/'] 2 [0, 1] [1, 0]).opened.Nodup ∧
      (WSt.mk (CreateHState.mk [DbAdd.mk ['a'] [] (FileRecord.mk FileType.file [] 0 0)])
        ['r', '/'] 2 [0, 1] [1, 0]).closed.Perm
        (WSt.mk (CreateHState.mk [DbAdd.mk ['a'] [] (FileRecord.mk FileType.file [] 0 0)])
          ['r', '/'] 2 [0, 1] [1, 0]).opened) :=
  ⟨by decide, by decide,
    scanFiles_releases_all_descriptors CreateHState createDBHandler (CreateHState.mk [])
      ['r']
      (FsNode.dirN (FsEntries.cons ['a'] (FsNode.fileN 0 0 [] false) FsEntries.nil))
      (WSt.mk (CreateHState.mk [DbAdd.mk ['a'] [] (FileRecord.mk FileType.file [] 0 0)])
        ['r', '/'] 2 [0, 1] [1, 0])
      (by decide) (by decide)⟩

/-- C5 counterexample: the walk of a root whose single entry `s` is a
symbolic link to a directory (standing for a tree outside the root, such
as `/`).  The per-entry `openat(dirFd, name, O_RDONLY)` carries no
O_NOFOLLOW, so the link is followed: fstat sees a directory, the createDB
handler records `s` as a DIR and, because it returns true, the walker
descends into the link's target and records the target's child `x` - the
walker emits events for and descends into content reached only through
the symbolic link, contradicting the claim that every directory is opened
with O_RDONLY | O_DIRECTORY | O_NOFOLLOW and that the walker never follows
a symbolic link. -/
theorem scanFiles_follows_symlink_counterexample :
    (scanFilesBuf createDBHandler escapeTree (initialWSt (CreateHState.mk []) ['r'])).map
        (fun st => st.hs.adds) =
      some [DbAdd.mk ['s'] [] dirRecord,
        DbAdd.mk ['x'] ['s']
          (FileRecord.mk FileType.file [1, 2, 3, 4, 5, 6, 7, 8] 7000 3)] := by
  decide

/-- C5 (amended): only the root directory is opened with O_RDONLY |
O_NOFOLLOW | O_DIRECTORY (so a symbolic-link root is refused); each child
entry is opened with `openat(dirFd, name, O_RDONLY)`, without O_NOFOLLOW
or O_DIRECTORY, so the walker follows a symbolic link among directory
entries: walking a link is the same as walking its target (under the
link's name), and whether the walker then descends is decided by the
event handler exactly as for a real directory. -/
theorem scanFiles_open_flags :
    rootOpenFlags = OpenFlags.mk true true true ∧
    childOpenFlags = OpenFlags.mk true false false ∧
    (∀ target : FsNode,
      openatNode childOpenFlags (FsNode.symlinkN target) =
        openatNode childOpenFlags target) ∧
    (∀ (σ : Type) (h : MHandler σ) (relPathOffset dirFd : Nat) (name : List Char)
        (target : FsNode) (st : WSt σ),
      walkEntry h relPathOffset dirFd name (FsNode.symlinkN target) st =
        walkEntry h relPathOffset dirFd name target st) ∧
    (∀ (σ : Type) (h : MHandler σ) (target : FsNode) (st : WSt σ),
      scanFilesBuf h (FsNode.symlinkN target) st = none) := by
  refine ⟨rfl, rfl, fun target => ?_, fun σ h ro df n target st => ?_, fun σ h target st => ?_⟩
  · simp [openatNode, childOpenFlags]
  · simp [walkEntry]
  · simp [scanFilesBuf, openatNode, rootOpenFlags]

/-- C3: when a filesystem entry's name is absent from the manifest's
listing of its containing directory (the top expected map), the visitor
emits exactly one newFileFound event, with the entry's root-relative path
and its type (FILE for a regular file, DIR for a directory), and returns
false; the walker therefore does not descend: the full walk state after
the entry shows exactly the one event appended, the context stack and the
path buffer unchanged, and only the entry's own descriptor opened and
closed. -/
theorem checkFileSystem_new_file :
    ∀ (db : List DbRow) (chk : FileRecord → FileRecord → Bool) (relPathOffset dirFd : Nat)
      (name : List Char) (st : WSt CheckHState) (ctx : List (List Char × FileRecord))
      (rest : List (List (List Char × FileRecord))),
      st.hs.ctxs = ctx :: rest →
      lookupKey ctx name = none →
      (∀ (fileSize mtimeSec : Int) (digest : List Nat),
        walkEntry (checkHandler db chk) relPathOffset dirFd name
            (FsNode.fileN fileSize mtimeSec digest false) st =
          WSt.mk
            (CheckHState.mk st.hs.dbDirs st.hs.ctxs
              (st.hs.events ++
                [Event.newFileE FileType.file ((st.path ++ name).drop relPathOffset)]))
            st.path (st.nextFd + 1) (st.opened ++ [st.nextFd])
            (st.closed ++ [st.nextFd])) ∧
      (∀ entries : FsEntries,
        walkEntry (checkHandler db chk) relPathOffset dirFd name (FsNode.dirN entries) st =
          WSt.mk
            (CheckHState.mk st.hs.dbDirs st.hs.ctxs
              (st.hs.events ++
                [Event.newFileE FileType.dir ((st.path ++ name).drop relPathOffset)]))
            st.path (st.nextFd + 1) (st.opened ++ [st.nextFd])
            (st.closed ++ [st.nextFd])) := by
  intro db chk relPathOffset dirFd name st ctx rest hctx hl
  obtain ⟨⟨dbDirs0, ctxs0, events0⟩, path0, nextFd0, opened0, closed0⟩ := st
  simp only at hctx
  subst hctx
  have hl' : lookupKey ctx ((path0 ++ name).drop ((path0 ++ name).length - name.length)) =
      none := by
    rw [drop_append_len]; exact hl
  constructor
  · intro fileSize mtimeSec digest
    simp only [walkEntry, Bool.false_eq_true, if_false,
      checkHandler_fileEv_none db chk (CheckHState.mk dbDirs0 (ctx :: rest) events0)
        (EntryInfo.mk false fileSize mtimeSec digest) (path0 ++ name) relPathOffset
        ((path0 ++ name).length - name.length) ctx rest rfl hl',
      if_true, eq_self_iff_true]
    rw [take_append_len path0 name]
  · intro entries
    simp only [walkEntry, Bool.false_eq_true, if_false,
      checkHandler_fileEv_none db chk (CheckHState.mk dbDirs0 (ctx :: rest) events0)
        (EntryInfo.mk true 0 0 []) (path0 ++ name) relPathOffset
        ((path0 ++ name).length - name.length) ctx rest rfl hl',
      if_true, eq_self_iff_true]
    rw [take_append_len path0 name]

/-- Witness for C3 at a concrete state: name `n` is not in the (empty)
expected map; for a regular file and for a directory entry exactly one
newFileFound event is emitted, with relative path `n`, and the walker does
not descend. -/
theorem checkFileSystem_new_file_witness :
    (WSt.mk (CheckHState.mk [] [[]] []) ['r', '/'] 0 [] [] : WSt CheckHState).hs.ctxs =
        [] :: [] ∧
    lookupKey [] ['n'] = none ∧
    ((∀ (fileSize mtimeSec : Int) (digest : List Nat),
        walkEntry (checkHandler [] verifyCheckFileMismatch) 2 0 ['n']
            (FsNode.fileN fileSize mtimeSec digest false)
            (WSt.mk (CheckHState.mk [] [[]] []) ['r', '/'] 0 [] []) =
          WSt.mk
            (CheckHState.mk [] [[]]
              [Event.newFileE FileType.file ((['r', '/'] ++ ['n']).drop 2)])
            ['r', '/'] 1 [0] [0]) ∧
      (∀ entries : FsEntries,
        walkEntry (checkHandler [] verifyCheckFileMismatch) 2 0 ['n']
            (FsNode.dirN entries)
            (WSt.mk (CheckHState.mk [] [[]] []) ['r', '/'] 0 [] []) =
          WSt.mk
            (CheckHState.mk [] [[]]
              [Event.newFileE FileType.dir ((['r', '/'] ++ ['n']).drop 2)])
            ['r', '/'] 1 [0] [0])) :=
  ⟨rfl, rfl,
    checkFileSystem_new_file [] verifyCheckFileMismatch 2 0 ['n']
      (WSt.mk (CheckHState.mk [] [[]] []) ['r', '/'] 0 [] []) [] [] rfl rfl⟩

/-- C2: entries that the manifest lists for a directory but that the walk
of that directory never encounters are reported at that directory's
dirEnd - one fileNotFound event per remaining entry, carrying the entry's
recorded type and its root-relative path - after which the per-directory
expected map is popped.  The first conjunct states this for the walk root,
the second for any directory the walker descends into; in both, the
remaining map equals the manifest's listing filtered to the names the walk
never handed to the visitor. -/
theorem checkFileSystem_file_not_found :
    (∀ (db : List DbRow) (chk : FileRecord → FileRecord → Bool)
        (dbDirs0 : List (List Char)) (rootPath : List Char) (entries : FsEntries)
        (st' : WSt CheckHState),
      cleanEntries entries = true →
      scanFilesBuf (checkHandler db chk) (FsNode.dirN entries)
          (initialWSt (CheckHState.mk dbDirs0 [] []) rootPath) = some st' →
      (∃ evs, st'.hs.events =
          [Event.dirStartE []] ++ evs ++
          (processNames (getFiles db []) entries).map
            (fun e => Event.fileNotFoundE e.2.type e.1) ++
          [Event.dirEndE []]) ∧
      st'.hs.ctxs = [] ∧
      processNames (getFiles db []) entries =
        (getFiles db []).filter (fun e => !(decide (e.1 ∈ encNames entries)))) ∧
    (∀ (db : List DbRow) (chk : FileRecord → FileRecord → Bool)
        (relPathOffset dirFd : Nat) (name : List Char) (entries : FsEntries)
        (st : WSt CheckHState) (ctx : List (List Char × FileRecord))
        (rest : List (List (List Char × FileRecord))) (expectedFileRecord : FileRecord),
      cleanEntries entries = true →
      st.hs.ctxs = ctx :: rest →
      lookupKey ctx name = some expectedFileRecord →
      chk expectedFileRecord dirRecord = true →
      (∃ evs,
        (walkEntry (checkHandler db chk) relPathOffset dirFd name (FsNode.dirN entries)
            st).hs.events =
          st.hs.events ++
          [Event.checkE ((st.path ++ name).drop relPathOffset) true,
            Event.dirStartE ((st.path ++ name).drop relPathOffset)] ++ evs ++
          (processNames (getFiles db ((st.path ++ name).drop relPathOffset)) entries).map
            (fun e => Event.fileNotFoundE e.2.type
              (((st.path ++ name) ++ ['/']).drop relPathOffset ++ e.1)) ++
          [Event.dirEndE (((st.path ++ name) ++ ['/']).drop relPathOffset)]) ∧
      (walkEntry (checkHandler db chk) relPathOffset dirFd name (FsNode.dirN entries)
          st).hs.ctxs = eraseKey ctx name :: rest ∧
      processNames (getFiles db ((st.path ++ name).drop relPathOffset)) entries =
        (getFiles db ((st.path ++ name).drop relPathOffset)).filter
          (fun e => !(decide (e.1 ∈ encNames entries)))) := by
  constructor
  · intro db chk dbDirs0 rootPath entries st' hclean hscan
    simp only [scanFilesBuf, openatNode, rootOpenFlags, isDirNode, Bool.and_self,
      Bool.not_true, Bool.and_false, Bool.false_eq_true, if_false, initialWSt,
      checkHandler_dirStart_eval, List.drop_length] at hscan
    obtain ⟨h4, h5, evs2, h6⟩ := walkEntries_check_frame db chk (rootPath ++ ['/']).length 0
      entries
      (WSt.mk
        (CheckHState.mk (dbDirs0.filter (fun d => !(decide (d = ([] : List Char)))))
          (getFiles db [] :: []) ([] ++ [Event.dirStartE []]))
        (rootPath ++ ['/']) 1 ([] ++ [0]) [])
      (getFiles db []) [] hclean rfl
    rw [checkHandler_dirEnd_eval db chk _ _ (rootPath ++ ['/']).length _ _ h4] at hscan
    rw [Option.some_inj] at hscan
    subst hscan
    simp only [h5, h6, List.drop_length]
    refine ⟨⟨evs2, ?_⟩, trivial, processNames_eq_filter entries (getFiles db [])⟩
    simp [List.append_assoc]
  · intro db chk relPathOffset dirFd name entries st ctx rest expectedFileRecord hclean
      hctx hl hm
    obtain ⟨⟨dbDirs0, ctxs0, events0⟩, path0, nextFd0, opened0, closed0⟩ := st
    simp only at hctx
    subst hctx
    have hl' : lookupKey ctx
        ((path0 ++ name).drop ((path0 ++ name).length - name.length)) =
        some expectedFileRecord := by
      rw [drop_append_len]; exact hl
    simp only [walkEntry,
      checkHandler_fileEv_some db chk (CheckHState.mk dbDirs0 (ctx :: rest) events0)
        (EntryInfo.mk true 0 0 []) (path0 ++ name) relPathOffset
        ((path0 ++ name).length - name.length) ctx rest expectedFileRecord rfl hl',
      checkHandler_dirStart_eval, drop_append_len, hm, eq_self_iff_true, if_true]
    obtain ⟨h4, h5, evs2, h6⟩ := walkEntries_check_frame db chk relPathOffset nextFd0
      entries
      (WSt.mk
        (CheckHState.mk
          (dbDirs0.filter (fun d => !(decide (d = (path0 ++ name).drop relPathOffset))))
          (getFiles db ((path0 ++ name).drop relPathOffset) :: (eraseKey ctx name :: rest))
          ((events0 ++ [Event.checkE ((path0 ++ name).drop relPathOffset) true]) ++
            [Event.dirStartE ((path0 ++ name).drop relPathOffset)]))
        ((path0 ++ name) ++ ['/']) (nextFd0 + 1) (opened0 ++ [nextFd0]) closed0)
      (getFiles db ((path0 ++ name).drop relPathOffset)) (eraseKey ctx name :: rest)
      hclean rfl
    rw [checkHandler_dirEnd_eval db chk _ _ relPathOffset _ _ h4]
    simp only [h5, h6]
    refine ⟨⟨evs2, ?_⟩, trivial,
      processNames_eq_filter entries (getFiles db ((path0 ++ name).drop relPathOffset))⟩
    simp [List.append_assoc]

/-- Witness for C2: the root part at a manifest listing one file `g` for
the root over an empty directory, which yields exactly one fileNotFound at
the root's dirEnd; and the descended-directory part at a directory `s`
whose listing is empty while the parent map holds `s`. -/
theorem checkFileSystem_file_not_found_witness :
    cleanEntries FsEntries.nil = true ∧
    ((∃ evs,
        (WSt.mk (CheckHState.mk [] []
            [Event.dirStartE [],
              Event.fileNotFoundE FileType.file ['g'], Event.dirEndE []])
          ['r', '/'] 1 [0] [0]).hs.events =
          [Event.dirStartE []] ++ evs ++
          (processNames
            (getFiles [DbRow.mk [] ['g']
              (FileRecord.mk FileType.file [1, 2, 3, 4, 5, 6, 7, 8] 5000 10)] [])
            FsEntries.nil).map (fun e => Event.fileNotFoundE e.2.type e.1) ++
          [Event.dirEndE []]) ∧
      (WSt.mk (CheckHState.mk [] []
          [Event.dirStartE [],
            Event.fileNotFoundE FileType.file ['g'], Event.dirEndE []])
        ['r', '/'] 1 [0] [0]).hs.ctxs = [] ∧
      processNames
          (getFiles [DbRow.mk [] ['g']
            (FileRecord.mk FileType.file [1, 2, 3, 4, 5, 6, 7, 8] 5000 10)] [])
          FsEntries.nil =
        (getFiles [DbRow.mk [] ['g']
            (FileRecord.mk FileType.file [1, 2, 3, 4, 5, 6, 7, 8] 5000 10)] []).filter
          (fun e => !(decide (e.1 ∈ encNames FsEntries.nil)))) ∧
    lookupKey [(['s'], dirRecord)] ['s'] = some dirRecord ∧
    verifyCheckFileMismatch dirRecord dirRecord = true ∧
    ((∃ evs,
        (walkEntry (checkHandler [] verifyCheckFileMismatch) 2 0 ['s']
            (FsNode.dirN FsEntries.nil)
            (WSt.mk (CheckHState.mk [] [[(['s'], dirRecord)]] []) ['r', '/'] 5 [] [])
            ).hs.events =
          (WSt.mk (CheckHState.mk [] [[(['s'], dirRecord)]] []) ['r', '/'] 5 [] []
            : WSt CheckHState).hs.events ++
          [Event.checkE (((['r', '/'] : List Char) ++ ['s']).drop 2) true,
            Event.dirStartE (((['r', '/'] : List Char) ++ ['s']).drop 2)] ++ evs ++
          (processNames
            (getFiles [] (((['r', '/'] : List Char) ++ ['s']).drop 2)) FsEntries.nil).map
            (fun e => Event.fileNotFoundE e.2.type
              ((((['r', '/'] : List Char) ++ ['s']) ++ ['/']).drop 2 ++ e.1)) ++
          [Event.dirEndE ((((['r', '/'] : List Char) ++ ['s']) ++ ['/']).drop 2)]) ∧
      (walkEntry (checkHandler [] verifyCheckFileMismatch) 2 0 ['s']
          (FsNode.dirN FsEntries.nil)
          (WSt.mk (CheckHState.mk [] [[(['s'], dirRecord)]] []) ['r', '/'] 5 [] [])
          ).hs.ctxs = eraseKey [(['s'], dirRecord)] ['s'] :: [] ∧
      processNames (getFiles [] (((['r', '/'] : List Char) ++ ['s']).drop 2))
          FsEntries.nil =
        (getFiles [] (((['r', '/'] : List Char) ++ ['s']).drop 2)).filter
          (fun e => !(decide (e.1 ∈ encNames FsEntries.nil)))) :=
  ⟨by decide,
    checkFileSystem_file_not_found.1
      [DbRow.mk [] ['g'] (FileRecord.mk FileType.file [1, 2, 3, 4, 5, 6, 7, 8] 5000 10)]
      verifyCheckFileMismatch [] ['r'] FsEntries.nil
      (WSt.mk (CheckHState.mk [] []
          [Event.dirStartE [],
            Event.fileNotFoundE FileType.file ['g'], Event.dirEndE []])
        ['r', '/'] 1 [0] [0]) (by decide) (by decide),
    by decide, by decide,
    checkFileSystem_file_not_found.2 [] verifyCheckFileMismatch 2 0 ['s'] FsEntries.nil
      (WSt.mk (CheckHState.mk [] [[(['s'], dirRecord)]] []) ['r', '/'] 5 [] [])
      [(['s'], dirRecord)] [] dirRecord (by decide) rfl (by decide) (by decide)⟩

/-- Witness for C10: the empty-root case at a concrete empty buffer, and
the "a//" root of size 3, which normalises to size 2 and still ends in a
slash. -/
theorem scanFiles_root_normalisation_witness :
    normalisedRootSize [] 0 = none ∧
    (∃ n, normalisedRootSize ['a', '/', '/'] 3 = some n ∧
      3 - 1 ≤ n ∧ n ≤ 3 ∧
      (['a', '/', '/'][3 - 1]? = some '/' → ['a', '/', '/'][3 - 2]? = some '/' → 2 ≤ 3 →
        n = 3 - 1 ∧ (['a', '/', '/'].take n)[n - 1]? = some '/')) :=
  ⟨(scanFiles_root_normalisation [] 0).1 rfl (by decide),
    (scanFiles_root_normalisation ['a', '/', '/'] 3).2 (by decide) (by decide) (by decide)⟩


end Mirror
